import Mathlib

/-!
Shallow embedding of the retrieval engine of the Styling-GenAI repository:
`src/app/rag.py` (`VectorStore`, `RAGSystem`) together with the configuration
values it reads from `src/config.py` (`ModelConfig`).

Modelling conventions:
* similarity scores and vector components are rationals (`ℚ`); the
  configured threshold `0.7` becomes `7/10`.  Because the field
  operations on `ℚ` are not kernel-reducible, the inner product is
  written with `mkRat`-based multiplication and addition (`ratMul`,
  `ratAdd`), which the lemmas `ratMul_eq`, `ratAdd_eq` and `dot_eq_sum`
  prove equal to the ordinary operations;
* the external sentence-transformers encoder and `faiss.normalize_L2`
  are abstract total functions bundled in `EmbedModel`; per the data
  model every text is encoded to a fixed-dimension vector.  All general
  theorems hold for every instantiation of `EmbedModel`.  Stacking the
  per-text vectors of an empty input yields a 1-D empty numpy array, so
  the dimension lookup `shape[1]` in `build_index` raises on an empty
  document list — modelled by `build_index` returning `none`;
* the three on-disk artifacts written next to one base path
  (`{path}.index`, `{path}.docs`, `{path}.embeddings.npy`) are modelled
  by `IndexFiles`, where `none` stands for a missing or unreadable file;
* `faiss.IndexFlatIP` exact search is modelled as scoring every stored
  vector by inner product and ordering by descending score with ties
  broken by ascending id; when `k` exceeds the index size faiss pads the
  result arrays with label `-1` and score `-∞`, entries which can never
  pass the finite similarity threshold in `rag.py`, so the model returns
  the `min(k, size)` real hits.
-/

namespace StylingRAG

/-- Similarity scores and vector components. -/
abbrev Score := ℚ

/-- `src/config.py` `ModelConfig`: the fields the retrieval engine reads. -/
structure ModelConfig where
  top_k_results : Nat
  similarity_threshold : Score
  chunk_size : Nat
  chunk_overlap : Nat

/-- `src/config.py`: the global `config` instance
(`top_k_results = 3`, `similarity_threshold = 0.7`,
`chunk_size = 500`, `chunk_overlap = 50`).  The threshold is written
`mkRat 7 10` so that it evaluates inside the kernel; the lemma
`similarity_threshold_eq` below checks it equals `7/10`. -/
def config : ModelConfig :=
  { top_k_results := 3, similarity_threshold := mkRat 7 10,
    chunk_size := 500, chunk_overlap := 50 }

/-- The metadata keys of langchain `Document`s that `rag.py` reads via
`metadata.get`; a `none` field models an absent key. -/
structure Metadata where
  source : Option String := none
  type : Option String := none
  filename : Option String := none
  product_id : Option String := none
deriving DecidableEq, Inhabited

/-- A langchain `Document`: text content plus metadata. -/
structure Document where
  page_content : String := ""
  metadata : Metadata := {}
deriving DecidableEq, Inhabited

/-- The external embedding stack: the sentence-transformers encoder
(`SentenceTransformer.encode` applied per text) and `faiss.normalize_L2`
(applied per row).  Both are abstract total functions; the encoder is
fixed-dimension as the spec's data model states. -/
structure EmbedModel where
  encode : String → List Score
  normalize_L2 : List Score → List Score

/-- `faiss.IndexFlatIP`: a flat store of vectors searched by exact inner
product. -/
structure IndexFlatIP where
  vecs : List (List Score)
deriving DecidableEq, Inhabited

/-- Rational multiplication written through `mkRat` so that it evaluates
inside the kernel; `ratMul_eq` proves it is `(· * ·)`. -/
def ratMul (a b : ℚ) : ℚ := mkRat (a.num * b.num) (a.den * b.den)

/-- Rational addition written through `mkRat` so that it evaluates
inside the kernel; `ratAdd_eq` proves it is `(· + ·)`. -/
def ratAdd (a b : ℚ) : ℚ := mkRat (a.num * b.den + b.num * a.den) (a.den * b.den)

/-- Inner product of two vectors (same dimension in every reachable
state; extra trailing components of a longer vector are ignored).
`dot_eq_sum` proves it equals the usual sum of products. -/
def dot (a b : List Score) : Score :=
  (List.zipWith ratMul a b).foldr ratAdd 0

/-- The ordering of faiss exact-search hits on (score, id) pairs:
higher score first, equal scores by ascending id. -/
def hitOrder (a b : Score × Nat) : Prop :=
  b.1 < a.1 ∨ (a.1 = b.1 ∧ a.2 ≤ b.2)

instance : DecidableRel hitOrder := fun a b => by
  unfold hitOrder; exact inferInstance

instance : IsTrans (Score × Nat) hitOrder := by
  constructor
  intro a b c hab hbc
  rcases hab with h1 | ⟨h1, h1'⟩ <;> rcases hbc with h2 | ⟨h2, h2'⟩
  · exact Or.inl (h2.trans h1)
  · exact Or.inl (h2 ▸ h1)
  · exact Or.inl (h1 ▸ h2)
  · exact Or.inr ⟨h1.trans h2, h1'.trans h2'⟩

instance : IsTotal (Score × Nat) hitOrder := by
  constructor
  intro a b
  rcases lt_trichotomy a.1 b.1 with h | h | h
  · exact Or.inr (Or.inl h)
  · rcases Nat.le_total a.2 b.2 with h' | h'
    · exact Or.inl (Or.inr ⟨h, h'⟩)
    · exact Or.inr (Or.inr ⟨h.symm, h'⟩)
  · exact Or.inl (Or.inl h)

/-- `faiss.IndexFlatIP.search` restricted to one query row: score every
stored vector, order descending (ties ascending id), return the first
`k` (score, id) pairs — see the padding note in the module docstring. -/
def IndexFlatIP.search (ix : IndexFlatIP) (qv : List Score) (k : Nat) :
    List (Score × Nat) :=
  (List.insertionSort hitOrder (ix.vecs.enum.map fun p => (dot qv p.2, p.1))).take k

/-- `VectorStore` (rag.py 165-172): `index = None`, `documents = []`,
`embeddings = None` on construction. -/
structure VectorStore where
  index : Option IndexFlatIP := none
  documents : List Document := []
  embeddings : Option (List (List Score)) := none
deriving DecidableEq, Inhabited

/-- `VectorStore.build_index` (rag.py 174-192): store the documents,
encode their contents, take the embedding dimension from
`self.embeddings.shape[1]` (rag.py 185), L2-normalize the rows in place
and add them to a fresh flat inner-product index.  On a non-empty text
list the stacked encoder output has shape `(n, d)` and the build
succeeds; on an empty list `encode([])` stacks to a 1-D empty array of
shape `(0,)`, so `shape[1]` raises `IndexError` — modelled as the
`none` result.  (Python has by then already reassigned `self.documents`
and `self.embeddings`; no theorem below examines the state abandoned by
that raise, so the `none` abstracts it.) -/
def VectorStore.build_index (M : EmbedModel) (vs : VectorStore)
    (documents : List Document) : Option VectorStore :=
  let texts := documents.map (·.page_content)
  let embs := (texts.map M.encode).map M.normalize_L2
  match embs with
  | [] => none
  | _ :: _ =>
    some { vs with documents := documents, embeddings := some embs,
                   index := some ⟨embs⟩ }

/-- `k = k or config.top_k_results` (rag.py 200): Python `or` replaces
both `None` and the falsy `0` by the configured default. -/
def effectiveK : Option Nat → Nat
  | none => config.top_k_results
  | some 0 => config.top_k_results
  | some (n+1) => n+1

/-- The raw faiss hits inside `VectorStore.similarity_search` (rag.py
202-207): the encoded and normalized query searched in the index;
empty when the index was never built. -/
def VectorStore.similarity_search_hits (M : EmbedModel) (vs : VectorStore)
    (query : String) (k : Option Nat) : List (Score × Nat) :=
  match vs.index with
  | none => []
  | some ix => ix.search (M.normalize_L2 (M.encode query)) (effectiveK k)

/-- One entry of the list `VectorStore.similarity_search` returns:
`{"document": ..., "score": ..., "rank": i + 1}`. -/
structure SearchResult where
  document : Document
  score : Score
  rank : Nat
deriving DecidableEq, Inhabited

/-- `VectorStore.similarity_search` (rag.py 194-218): `[]` if the index
was never built; otherwise the faiss hits whose score reaches
`config.similarity_threshold`, each paired with its document and its
1-based enumeration position as rank.  (The hit ids are in range for
every consistently built or loaded store, so `getD` never falls back.) -/
def VectorStore.similarity_search (M : EmbedModel) (vs : VectorStore)
    (query : String) (k : Option Nat) : List SearchResult :=
  match vs.index with
  | none => []
  | some _ =>
    (vs.similarity_search_hits M query k).enum.filterMap fun p =>
      if config.similarity_threshold ≤ p.2.1 then
        some { document := vs.documents.getD p.2.2 default,
               score := p.2.1, rank := p.1 + 1 }
      else none

/-- The three artifact files sharing the base path `data/vector_index`:
`{path}.index`, `{path}.docs`, `{path}.embeddings.npy`.  `none` models
a missing or unreadable (corrupt) artifact. -/
structure IndexFiles where
  indexFile : Option IndexFlatIP := none
  docsFile : Option (List Document) := none
  embeddingsFile : Option (List (List Score)) := none
deriving DecidableEq, Inhabited

/-- `VectorStore.save_index` (rag.py 220-231): write the faiss index,
the pickled document list and the embedding matrix.  `none` models the
exception `faiss.write_index` raises on a store that was never built;
on a built store saving always yields the three artifacts. -/
def VectorStore.save_index (vs : VectorStore) : Option IndexFiles :=
  match vs.index, vs.embeddings with
  | some ix, some em =>
    some { indexFile := some ix, docsFile := some vs.documents,
           embeddingsFile := some em }
  | _, _ => none

/-- `VectorStore.load_index` (rag.py 233-247): read the three artifacts
in order inside one `try` block, assigning `self.index`,
`self.documents` and `self.embeddings` as each read succeeds; the first
failing read aborts the block and returns `False`, keeping every
assignment already made. -/
def VectorStore.load_index (vs : VectorStore) (fsys : IndexFiles) :
    VectorStore × Bool :=
  match fsys.indexFile with
  | none => (vs, false)
  | some ix =>
    let vs1 := { vs with index := some ix }
    match fsys.docsFile with
    | none => (vs1, false)
    | some ds =>
      let vs2 := { vs1 with documents := ds }
      match fsys.embeddingsFile with
      | none => (vs2, false)
      | some em => ({ vs2 with embeddings := some em }, true)

/-- `RAGSystem` (rag.py 250-257): a vector store plus the
`is_initialized` flag (the document processor holds no state the
retrieval claims depend on). -/
structure RAGSystem where
  vector_store : VectorStore := {}
  is_initialized : Bool := false
deriving DecidableEq, Inhabited

/-- `RAGSystem.initialize` (rag.py 259-293).  The document-processor
pipeline (markdown/json loading plus langchain text splitting) is
filesystem- and library-bound, so its output — the chunked document
list — is passed as `kb`.  Unless `force_rebuild` is set, a successful
load of the persisted artifacts initializes from disk; otherwise the
engine rebuilds from `kb` and saves.  `none` models an exception raised
during the rebuild path (in particular the `IndexError` `build_index`
raises on an empty document list, which `initialize` does not catch). -/
def RAGSystem.initialize (M : EmbedModel) (kb : List Document)
    (rag : RAGSystem) (fsys : IndexFiles) (force_rebuild : Bool) :
    Option (RAGSystem × IndexFiles) :=
  let attempt :=
    if force_rebuild then (rag.vector_store, false)
    else rag.vector_store.load_index fsys
  if attempt.2 then
    some ({ rag with vector_store := attempt.1, is_initialized := true }, fsys)
  else
    match attempt.1.build_index M kb with
    | none => none
    | some vs =>
      match vs.save_index with
      | some fsys2 =>
        some ({ rag with vector_store := vs, is_initialized := true }, fsys2)
      | none => none

/-- The provenance-prefixed block built for one result (rag.py 315-316):
`"[Source: <filename>]\n<content>\n"`, the filename defaulting to
`"unknown"` when the metadata key is absent. -/
def formatBlock (r : SearchResult) : String :=
  let source_info := "[Source: " ++ r.document.metadata.filename.getD "unknown" ++ "]"
  source_info ++ "\n" ++ r.document.page_content ++ "\n"

/-- The greedy budget loop of `get_relevant_context` (rag.py 306-322):
append formatted blocks in rank order, breaking as soon as the
accumulated block length would exceed the budget. -/
def takeParts (max_context_length : Nat) :
    List SearchResult → Nat → List String
  | [], _ => []
  | r :: rest, total =>
    let s := formatBlock r
    if total + s.length > max_context_length then []
    else s :: takeParts max_context_length rest (total + s.length)

/-- Python `sep.join(parts)`. -/
def strJoin (sep : String) : List String → String
  | [] => ""
  | [s] => s
  | s :: rest => s ++ sep ++ strJoin sep rest

/-- Total character count of a list of blocks. -/
def sumLens (ps : List String) : Nat := (ps.map String.length).sum

/-- `RAGSystem.get_relevant_context` (rag.py 295-324): auto-initialize
if needed, search at the configured `k`, return the sentinel message on
an empty result list, else the greedy budget assembly joined by
`"\n---\n"`.  (If the auto-initialize raises, Python propagates the
exception; the `none` fallback below is unreachable in the initialized
executions the theorems consider.) -/
def RAGSystem.get_relevant_context (M : EmbedModel) (kb : List Document)
    (rag : RAGSystem) (fsys : IndexFiles) (query : String)
    (max_context_length : Nat) : String :=
  let rag :=
    if rag.is_initialized then rag
    else
      match rag.initialize M kb fsys false with
      | some p => p.1
      | none => rag
  let results := rag.vector_store.similarity_search M query none
  if results.isEmpty then
    "No relevant information found in the knowledge base."
  else
    strJoin "\n---\n" (takeParts max_context_length results 0)

/-- One entry of the list `RAGSystem.search_products` returns. -/
structure ProductResult where
  product_id : Option String
  content : String
  score : Score
deriving DecidableEq, Inhabited

/-- `RAGSystem.search_products` (rag.py 326-343): auto-initialize if
needed, run `similarity_search`, and keep, in order, the results whose
metadata `type` is `"product"`, projected to
(product_id, content, score). -/
def RAGSystem.search_products (M : EmbedModel) (kb : List Document)
    (rag : RAGSystem) (fsys : IndexFiles) (query : String) :
    List ProductResult :=
  let rag :=
    if rag.is_initialized then rag
    else
      match rag.initialize M kb fsys false with
      | some p => p.1
      | none => rag
  let results := rag.vector_store.similarity_search M query none
  results.filterMap fun r =>
    if r.document.metadata.type = some "product" then
      some { product_id := r.document.metadata.product_id,
             content := r.document.page_content, score := r.score }
    else none

/-! ### Concrete instances used by witnesses and counterexamples -/

/-- A concrete embedding model: one-dimensional vectors, with the text
of the product document mapped to a vector whose score against any
query will be `1/2` (below the `0.7` threshold), and every other text
mapped to a unit vector (score `1`). -/
def M1 : EmbedModel :=
  { encode := fun s => if s = "hoodie product" then [mkRat 1 2] else [1],
    normalize_L2 := id }

/-- A markdown document (an FAQ chunk). -/
def docA : Document :=
  { page_content := "alpha doc",
    metadata := { type := some "markdown", filename := some "faq.md" } }

/-- A product document. -/
def docP : Document :=
  { page_content := "hoodie product",
    metadata := { type := some "product", product_id := some "P1" } }

/-- An initialized engine over `[docA, docP]`: for the query
`"hoodie"`, `docA` scores `1` and `docP` scores `1/2`.  (`build_index`
succeeds on this non-empty list, so the `getD` fallback is never
taken.) -/
def rag1 : RAGSystem :=
  { vector_store := (VectorStore.build_index M1 {} [docA, docP]).getD {},
    is_initialized := true }

/-- Artifact files in which only the faiss index file is present: the
pickled document list and the embedding matrix are missing. -/
def fsIndexOnly : IndexFiles := { indexFile := some ⟨[[1]]⟩ }

/-! ### Sanity lemmas for the kernel-reducible rational operations -/

theorem ratMul_eq (a b : ℚ) : ratMul a b = a * b := by
  rw [ratMul, Rat.mkRat_eq_div]
  push_cast
  conv_rhs => rw [← Rat.num_div_den a, ← Rat.num_div_den b]
  rw [div_mul_div_comm]

theorem ratAdd_eq (a b : ℚ) : ratAdd a b = a + b := by
  rw [ratAdd, Rat.mkRat_eq_div]
  push_cast
  conv_rhs => rw [← Rat.num_div_den a, ← Rat.num_div_den b]
  rw [div_add_div _ _ (Nat.cast_ne_zero.mpr a.den_nz) (Nat.cast_ne_zero.mpr b.den_nz)]
  ring_nf

theorem dot_eq_sum (a b : List Score) :
    dot a b = (List.zipWith (· * ·) a b).sum := by
  have h1 : ratMul = (· * ·) := funext fun x => funext fun y => ratMul_eq x y
  have h2 : ratAdd = (· + ·) := funext fun x => funext fun y => ratAdd_eq x y
  rw [dot, h1, h2, List.sum_eq_foldr]

theorem similarity_threshold_eq : config.similarity_threshold = 7/10 := by
  show mkRat 7 10 = 7/10
  rw [Rat.mkRat_eq_div]; norm_num

/-! ### Helper lemmas about the search pipeline -/

theorem search_mem_score {M : EmbedModel} {vs : VectorStore} {q : String}
    {k : Option Nat} {r : SearchResult}
    (h : r ∈ vs.similarity_search M q k) :
    config.similarity_threshold ≤ r.score := by
  rw [VectorStore.similarity_search] at h
  cases hix : vs.index with
  | none => rw [hix] at h; simp at h
  | some ix =>
    rw [hix] at h
    obtain ⟨p, -, hp⟩ := List.mem_filterMap.mp h
    by_cases hth : config.similarity_threshold ≤ p.2.1
    · rw [if_pos hth] at hp
      cases hp
      exact hth
    · rw [if_neg hth] at hp
      cases hp

theorem hits_sorted (M : EmbedModel) (vs : VectorStore) (q : String)
    (k : Option Nat) :
    (vs.similarity_search_hits M q k).Pairwise hitOrder := by
  rw [VectorStore.similarity_search_hits]
  cases vs.index with
  | none => simp
  | some ix =>
    exact List.Pairwise.sublist (List.take_sublist _ _)
      (List.sorted_insertionSort hitOrder _)

theorem hits_snd_nodup (M : EmbedModel) (vs : VectorStore) (q : String)
    (k : Option Nat) :
    ((vs.similarity_search_hits M q k).map Prod.snd).Nodup := by
  rw [VectorStore.similarity_search_hits]
  cases vs.index with
  | none => simp
  | some ix =>
    simp only [IndexFlatIP.search]
    refine List.Nodup.sublist (List.Sublist.map _ (List.take_sublist _ _)) ?_
    refine ((List.perm_insertionSort hitOrder _).map Prod.snd).symm.nodup ?_
    have h1 : ((ix.vecs.enum.map fun p => (dot (M.normalize_L2 (M.encode q)) p.2, p.1)).map
        Prod.snd) = ix.vecs.enum.map Prod.fst := by
      rw [List.map_map]; rfl
    rw [h1, List.enum_map_fst]
    exact List.nodup_range _

theorem hits_pairwise_strict (M : EmbedModel) (vs : VectorStore)
    (q : String) (k : Option Nat) :
    (vs.similarity_search_hits M q k).Pairwise
      (fun a b => b.1 < a.1 ∨ (a.1 = b.1 ∧ a.2 < b.2)) := by
  have h1 := hits_sorted M vs q k
  have h2 : (vs.similarity_search_hits M q k).Pairwise
      (fun a b => a.2 ≠ b.2) :=
    List.pairwise_map.mp (hits_snd_nodup M vs q k)
  refine (h1.and h2).imp ?_
  rintro a b ⟨hord, hne⟩
  rcases hord with h | ⟨hfst, hsnd⟩
  · exact Or.inl h
  · refine Or.inr ⟨hfst, lt_of_le_of_ne hsnd ?_⟩
    intro hc
    exact hne hc

theorem filterMap_enumFrom_scores (ds : List Document) :
    ∀ (hs : List (Score × Nat)) (n : Nat),
      ((hs.enumFrom n).filterMap fun p =>
          if config.similarity_threshold ≤ p.2.1 then
            some { document := ds.getD p.2.2 default,
                   score := p.2.1, rank := p.1 + 1 }
          else (none : Option SearchResult)).map (fun r => r.score) =
        (hs.map Prod.fst).filter (fun s => decide (config.similarity_threshold ≤ s))
  | [], _ => rfl
  | h :: t, n => by
    simp only [List.enumFrom_cons, List.filterMap_cons, List.map_cons,
      List.filter_cons]
    by_cases hth : config.similarity_threshold ≤ h.1
    · rw [if_pos hth]
      simp only [List.map_cons, decide_eq_true hth, if_pos]
      rw [filterMap_enumFrom_scores ds t (n+1)]
    · rw [if_neg hth]
      simp only [decide_eq_false hth, Bool.false_eq_true, if_neg, not_false_iff]
      rw [filterMap_enumFrom_scores ds t (n+1)]

theorem search_scores_filter (M : EmbedModel) (vs : VectorStore)
    (q : String) (k : Option Nat) (ix : IndexFlatIP)
    (hix : vs.index = some ix) :
    (vs.similarity_search M q k).map (fun r => r.score) =
      ((vs.similarity_search_hits M q k).map Prod.fst).filter
        (fun s => decide (config.similarity_threshold ≤ s)) := by
  rw [VectorStore.similarity_search, hix]
  exact filterMap_enumFrom_scores vs.documents _ 0

theorem search_pairwise_scores (M : EmbedModel) (vs : VectorStore)
    (q : String) (k : Option Nat) :
    (vs.similarity_search M q k).Pairwise (fun r s => s.score ≤ r.score) := by
  cases hix : vs.index with
  | none => rw [VectorStore.similarity_search, hix]; simp
  | some ix =>
    have h1 : ((vs.similarity_search_hits M q k).map Prod.fst).Pairwise
        (fun a b => b ≤ a) := by
      refine List.pairwise_map.mpr ((hits_sorted M vs q k).imp ?_)
      rintro a b (h | ⟨h, -⟩)
      · exact le_of_lt h
      · exact le_of_eq h.symm
    have h2 : ((vs.similarity_search M q k).map (fun r => r.score)).Pairwise
        (fun a b => b ≤ a) := by
      rw [search_scores_filter M vs q k ix hix]
      exact List.Pairwise.sublist (List.filter_sublist _) h1
    exact List.pairwise_map.mp h2

theorem search_length_le_effK (M : EmbedModel) (vs : VectorStore)
    (q : String) (k : Option Nat) :
    (vs.similarity_search M q k).length ≤ effectiveK k := by
  cases hix : vs.index with
  | none => rw [VectorStore.similarity_search, hix]; simp
  | some ix =>
    rw [VectorStore.similarity_search, hix]
    refine le_trans (List.length_filterMap_le _ _) ?_
    rw [List.enum_length]
    rw [VectorStore.similarity_search_hits, hix]
    simp only [IndexFlatIP.search]
    rw [List.length_take]
    exact Nat.min_le_left _ _

theorem search_length_le_size (M : EmbedModel) (vs : VectorStore)
    (q : String) (k : Option Nat) (ix : IndexFlatIP)
    (hix : vs.index = some ix) :
    (vs.similarity_search M q k).length ≤ ix.vecs.length := by
  rw [VectorStore.similarity_search, hix]
  refine le_trans (List.length_filterMap_le _ _) ?_
  rw [List.enum_length]
  rw [VectorStore.similarity_search_hits, hix]
  simp only [IndexFlatIP.search]
  rw [List.length_take]
  refine le_trans (Nat.min_le_right _ _) ?_
  rw [List.length_insertionSort, List.length_map, List.enum_length]

/-! ### Helper lemmas about context assembly -/

theorem takeParts_eq_take_map (L : Nat) :
    ∀ (rs : List SearchResult) (total : Nat),
      takeParts L rs total =
        (rs.take (takeParts L rs total).length).map formatBlock
  | [], _ => rfl
  | r :: rest, total => by
    simp only [takeParts]
    by_cases h : total + (formatBlock r).length > L
    · rw [if_pos h]; rfl
    · rw [if_neg h]
      simp only [List.length_cons, List.take_succ_cons, List.map_cons]
      exact congrArg (formatBlock r :: ·)
        (takeParts_eq_take_map L rest (total + (formatBlock r).length))

theorem takeParts_sum_le (L : Nat) :
    ∀ (rs : List SearchResult) (total : Nat),
      takeParts L rs total = [] ∨
        total + sumLens (takeParts L rs total) ≤ L
  | [], _ => Or.inl rfl
  | r :: rest, total => by
    simp only [takeParts]
    by_cases h : total + (formatBlock r).length > L
    · rw [if_pos h]; exact Or.inl rfl
    · rw [if_neg h]
      right
      rcases takeParts_sum_le L rest (total + (formatBlock r).length) with h2 | h2
      · rw [h2]
        simp only [sumLens, List.map_cons, List.map_nil, List.sum_cons,
          List.sum_nil]
        omega
      · simp only [sumLens, List.map_cons, List.sum_cons] at h2 ⊢
        omega

theorem takeParts_length_le (L : Nat) (rs : List SearchResult) (total : Nat) :
    (takeParts L rs total).length ≤ rs.length := by
  conv_lhs => rw [takeParts_eq_take_map L rs total]
  rw [List.length_map, List.length_take]
  exact Nat.min_le_right _ _

theorem strJoin_length (sep : String) :
    ∀ ps : List String,
      (strJoin sep ps).length = sumLens ps + sep.length * (ps.length - 1)
  | [] => by simp [strJoin, sumLens]
  | [s] => by simp [strJoin, sumLens]
  | s :: s2 :: rest => by
    have ih := strJoin_length sep (s2 :: rest)
    simp only [strJoin, String.length_append, sumLens, List.map_cons,
      List.sum_cons, List.length_cons, Nat.add_sub_cancel] at ih ⊢
    rw [ih, Nat.mul_succ]
    ring

theorem formatBlock_length (r : SearchResult) :
    (formatBlock r).length =
      12 + (r.document.metadata.filename.getD "unknown").length +
        r.document.page_content.length := by
  have h1 : ("[Source: " : String).length = 9 := rfl
  have h2 : ("]" : String).length = 1 := rfl
  have h3 : ("\n" : String).length = 1 := rfl
  simp only [formatBlock, String.length_append, h1, h2, h3]
  omega

theorem formatBlock_length_ge (r : SearchResult) :
    12 ≤ (formatBlock r).length := by
  rw [formatBlock_length]; omega

theorem get_relevant_context_initialized (M : EmbedModel)
    (kb : List Document) (rag : RAGSystem) (fsys : IndexFiles)
    (q : String) (L : Nat) (h : rag.is_initialized = true) :
    RAGSystem.get_relevant_context M kb rag fsys q L =
      if (rag.vector_store.similarity_search M q none).isEmpty then
        "No relevant information found in the knowledge base."
      else
        strJoin "\n---\n"
          (takeParts L (rag.vector_store.similarity_search M q none) 0) := by
  rw [RAGSystem.get_relevant_context]
  simp only [h, if_true]

theorem search_products_initialized (M : EmbedModel) (kb : List Document)
    (rag : RAGSystem) (fsys : IndexFiles) (q : String)
    (h : rag.is_initialized = true) :
    RAGSystem.search_products M kb rag fsys q =
      (rag.vector_store.similarity_search M q none).filterMap fun r =>
        if r.document.metadata.type = some "product" then
          some { product_id := r.document.metadata.product_id,
                 content := r.document.page_content, score := r.score }
        else none := by
  rw [RAGSystem.search_products]
  simp only [h, if_true]

theorem filterMap_if_eq_filter_map {α β : Type} (p : α → Prop)
    [DecidablePred p] (f : α → β) :
    ∀ l : List α,
      (l.filterMap fun a => if p a then some (f a) else none) =
        (l.filter fun a => decide (p a)).map f
  | [] => rfl
  | a :: l => by
    simp only [List.filterMap_cons, List.filter_cons]
    by_cases h : p a
    · rw [if_pos h]
      simp only [decide_eq_true h, if_pos, List.map_cons]
      rw [filterMap_if_eq_filter_map p f l]
    · rw [if_neg h]
      simp only [decide_eq_false h, Bool.false_eq_true, if_neg,
        not_false_iff]
      rw [filterMap_if_eq_filter_map p f l]

/-! ### Claim theorems -/

/-- C8: for every query and `k`, `similarity_search` on a `VectorStore`
whose index has never been built returns an empty list (and, being a
total function of the state, does not raise). -/
theorem similarity_search_unbuilt_empty (M : EmbedModel) (vs : VectorStore)
    (h : vs.index = none) (q : String) (k : Option Nat) :
    vs.similarity_search M q k = [] := by
  rw [VectorStore.similarity_search, h]

/-- C8 witness: a freshly constructed store has no index and searching
it returns `[]`. -/
theorem similarity_search_unbuilt_empty_witness :
    ({} : VectorStore).index = none ∧
      VectorStore.similarity_search M1 {} "do you ship internationally" none = [] :=
  ⟨rfl, similarity_search_unbuilt_empty M1 {} rfl "do you ship internationally" none⟩

/-- C4 (the code evaluated at the failing input): `build_index` on the
empty chunk list raises instead of producing an empty queryable index —
`encode([])` stacks to a 1-D empty array, so the dimension lookup
`self.embeddings.shape[1]` (rag.py 185) is out of range and raises
`IndexError`, modelled as the `none` result.  The spec requires the
empty list to yield an empty, queryable-but-always-empty index. -/
theorem build_index_empty_raises (M : EmbedModel) (vs : VectorStore) :
    vs.build_index M [] = none := rfl

/-- C3 counterexample: with only the faiss index artifact present and
the document/embedding artifacts missing, `load_index` on a fresh store
returns `False` — but the store is no longer in its pre-call state: the
index field was already overwritten before the failure. -/
theorem load_index_partial_mutation_cx :
    (VectorStore.load_index {} fsIndexOnly).2 = false ∧
      (VectorStore.load_index {} fsIndexOnly).1 ≠ ({} : VectorStore) := by
  decide

/-- C3 (amended): `load_index` returns `False` exactly when one of the
three artifacts is missing or unreadable, and the state survives
untouched when the first artifact (the faiss index file) is the missing
one; artifacts read before the failing one remain assigned, so a
failure after the first read leaves a partial mutation. -/
theorem load_index_failure_signal (vs : VectorStore) (fsys : IndexFiles) :
    ((vs.load_index fsys).2 = false ↔
      (fsys.indexFile = none ∨ fsys.docsFile = none ∨
        fsys.embeddingsFile = none)) ∧
    vs.load_index { fsys with indexFile := none } = (vs, false) := by
  obtain ⟨oi, od, oe⟩ := fsys
  cases oi <;> cases od <;> cases oe <;>
    simp [VectorStore.load_index]

/-- C9 counterexample: Python's `k or config.top_k_results` treats
`k = 0` as unset, so `similarity_search` with `k = 0` falls back to the
configured `k = 3` and can return more than `k` results — here one
result, refuting "result length ≤ k" as stated. -/
theorem similarity_search_k_zero_cx :
    ¬ ((rag1.vector_store.similarity_search M1 "hoodie" (some 0)).length ≤ 0) := by
  decide

/-- C9 (amended): on a built index the raw hits are strictly ordered —
descending score, ties broken by strictly ascending original index
position — the returned results have non-increasing scores, and the
result list has length at most the effective `k` (a passed `k` of
`None` or `0` falls back to the configured `top_k_results`) and at most
the index size. -/
theorem similarity_search_ranked (M : EmbedModel) (vs : VectorStore)
    (ix : IndexFlatIP) (q : String) (k : Option Nat)
    (hix : vs.index = some ix) :
    (vs.similarity_search_hits M q k).Pairwise
        (fun a b => b.1 < a.1 ∨ (a.1 = b.1 ∧ a.2 < b.2)) ∧
      (vs.similarity_search M q k).Pairwise (fun r s => s.score ≤ r.score) ∧
      (vs.similarity_search M q k).length ≤ effectiveK k ∧
      (vs.similarity_search M q k).length ≤ ix.vecs.length :=
  ⟨hits_pairwise_strict M vs q k, search_pairwise_scores M vs q k,
   search_length_le_effK M vs q k, search_length_le_size M vs q k ix hix⟩

/-- C9 witness: the ranking theorem applied to the concrete two-document
index at the query `"hoodie"`. -/
theorem similarity_search_ranked_witness :
    (rag1.vector_store.similarity_search_hits M1 "hoodie" none).Pairwise
        (fun a b => b.1 < a.1 ∨ (a.1 = b.1 ∧ a.2 < b.2)) ∧
      (rag1.vector_store.similarity_search M1 "hoodie" none).Pairwise
        (fun r s => s.score ≤ r.score) ∧
      (rag1.vector_store.similarity_search M1 "hoodie" none).length ≤
        effectiveK none ∧
      (rag1.vector_store.similarity_search M1 "hoodie" none).length ≤
        (⟨[[1], [mkRat 1 2]]⟩ : IndexFlatIP).vecs.length :=
  similarity_search_ranked M1 rag1.vector_store ⟨[[1], [mkRat 1 2]]⟩
    "hoodie" none rfl

/-- C1 counterexample: for the query `"hoodie"` the raw faiss search
hits include the product document (id 1) with score `1/2`, yet
`search_products` returns the empty list: the type-matching hit is
dropped because its score is below the configured threshold, which the
underlying `similarity_search` applies.  This refutes "every
type-matching search hit is returned regardless of its similarity
score". -/
theorem search_products_threshold_cx :
    RAGSystem.search_products M1 [] rag1 {} "hoodie" = [] ∧
      (mkRat 1 2, 1) ∈ rag1.vector_store.similarity_search_hits M1 "hoodie" none ∧
      (rag1.vector_store.documents.getD 1 default).metadata.type = some "product" ∧
      ¬ (config.similarity_threshold ≤ mkRat 1 2) := by
  decide

/-- C1 (amended): `search_products` returns exactly the results of
`similarity_search` whose metadata type is `"product"`, in rank order,
applying no additional threshold itself — but `similarity_search`
already discards hits below the configured threshold, so every returned
product has score at least the threshold; a type-matching chunk scoring
below it is never returned. -/
theorem search_products_type_filter (M : EmbedModel) (kb : List Document)
    (rag : RAGSystem) (fsys : IndexFiles) (q : String)
    (h : rag.is_initialized = true) :
    (RAGSystem.search_products M kb rag fsys q =
      ((rag.vector_store.similarity_search M q none).filter
          (fun r => decide (r.document.metadata.type = some "product"))).map
        (fun r => { product_id := r.document.metadata.product_id,
                    content := r.document.page_content, score := r.score })) ∧
    ∀ p ∈ RAGSystem.search_products M kb rag fsys q,
      config.similarity_threshold ≤ p.score := by
  have h1 := search_products_initialized M kb rag fsys q h
  constructor
  · rw [h1, filterMap_if_eq_filter_map]
  · intro p hp
    rw [h1] at hp
    obtain ⟨r, hr, hpr⟩ := List.mem_filterMap.mp hp
    have hsc := search_mem_score hr
    by_cases ht : r.document.metadata.type = some "product"
    · rw [if_pos ht] at hpr
      cases hpr
      exact hsc
    · rw [if_neg ht] at hpr
      cases hpr

/-- C1 witness: the amended theorem applied to the concrete initialized
engine at the query `"hoodie"`. -/
theorem search_products_type_filter_witness :
    (RAGSystem.search_products M1 [] rag1 {} "hoodie" =
      ((rag1.vector_store.similarity_search M1 "hoodie" none).filter
          (fun r => decide (r.document.metadata.type = some "product"))).map
        (fun r => { product_id := r.document.metadata.product_id,
                    content := r.document.page_content, score := r.score })) ∧
    ∀ p ∈ RAGSystem.search_products M1 [] rag1 {} "hoodie",
      config.similarity_threshold ≤ p.score :=
  search_products_type_filter M1 [] rag1 {} "hoodie" rfl

/-- A list that is not `[]` has `isEmpty = false`. -/
theorem isEmpty_false_of_ne_nil {A : Type} {l : List A} (h : l ≠ []) :
    l.isEmpty = false := by
  cases l with
  | nil => exact absurd rfl h
  | cons a t => rfl

/-- C7: every block assembled into the context by
`get_relevant_context` comes from a search result whose raw similarity
score is at least the configured threshold — no sub-threshold chunk
ever appears in the returned context (whose non-sentinel form is
exactly the join of those blocks). -/
theorem get_relevant_context_threshold (M : EmbedModel) (kb : List Document)
    (rag : RAGSystem) (fsys : IndexFiles) (q : String) (L : Nat)
    (h : rag.is_initialized = true) :
    (rag.vector_store.similarity_search M q none ≠ [] →
      RAGSystem.get_relevant_context M kb rag fsys q L =
        strJoin "\n---\n"
          (takeParts L (rag.vector_store.similarity_search M q none) 0)) ∧
    ∀ p ∈ takeParts L (rag.vector_store.similarity_search M q none) 0,
      ∃ r ∈ rag.vector_store.similarity_search M q none,
        p = formatBlock r ∧ config.similarity_threshold ≤ r.score := by
  constructor
  · intro hne
    rw [get_relevant_context_initialized M kb rag fsys q L h,
        isEmpty_false_of_ne_nil hne]
    simp only [Bool.false_eq_true, if_false]
  · intro p hp
    rw [takeParts_eq_take_map] at hp
    obtain ⟨r, hr, rfl⟩ := List.mem_map.mp hp
    exact ⟨r, List.mem_of_mem_take hr, rfl,
      search_mem_score (List.mem_of_mem_take hr)⟩

/-- C7 witness: the threshold theorem applied to the concrete
initialized engine at the query `"hoodie"` with budget 100. -/
theorem get_relevant_context_threshold_witness :
    (rag1.vector_store.similarity_search M1 "hoodie" none ≠ [] →
      RAGSystem.get_relevant_context M1 [] rag1 {} "hoodie" 100 =
        strJoin "\n---\n"
          (takeParts 100 (rag1.vector_store.similarity_search M1 "hoodie" none) 0)) ∧
    ∀ p ∈ takeParts 100 (rag1.vector_store.similarity_search M1 "hoodie" none) 0,
      ∃ r ∈ rag1.vector_store.similarity_search M1 "hoodie" none,
        p = formatBlock r ∧ config.similarity_threshold ≤ r.score :=
  get_relevant_context_threshold M1 [] rag1 {} "hoodie" 100 rfl

/-- C2: context assembly appends whole formatted blocks in rank order
(never splitting a result), stops before the accumulated block length
exceeds the budget, and the returned string is at most `max_length`
plus the length of one provenance-prefixed block (the separators joined
in never outweigh a block, since at most the configured 3 results
exist). -/
theorem get_relevant_context_budget (M : EmbedModel) (kb : List Document)
    (rag : RAGSystem) (fsys : IndexFiles) (q : String) (L : Nat)
    (h : rag.is_initialized = true)
    (hne : rag.vector_store.similarity_search M q none ≠ []) :
    (takeParts L (rag.vector_store.similarity_search M q none) 0 =
      ((rag.vector_store.similarity_search M q none).take
          (takeParts L (rag.vector_store.similarity_search M q none) 0).length).map
        formatBlock) ∧
    sumLens (takeParts L (rag.vector_store.similarity_search M q none) 0) ≤ L ∧
    (RAGSystem.get_relevant_context M kb rag fsys q L).length ≤
      L + (formatBlock
            (rag.vector_store.similarity_search M q none).headI).length := by
  have hsum : sumLens (takeParts L (rag.vector_store.similarity_search M q none) 0) ≤ L := by
    rcases takeParts_sum_le L (rag.vector_store.similarity_search M q none) 0 with h2 | h2
    · rw [h2]; exact Nat.zero_le L
    · omega
  refine ⟨takeParts_eq_take_map L _ 0, hsum, ?_⟩
  rw [get_relevant_context_initialized M kb rag fsys q L h,
      isEmpty_false_of_ne_nil hne]
  simp only [Bool.false_eq_true, if_false]
  have hlen := strJoin_length "\n---\n"
    (takeParts L (rag.vector_store.similarity_search M q none) 0)
  have hsep : ("\n---\n" : String).length = 5 := rfl
  have hm : (takeParts L (rag.vector_store.similarity_search M q none) 0).length ≤ 3 :=
    le_trans (takeParts_length_le _ _ _)
      (search_length_le_effK M rag.vector_store q none)
  have hblock : 12 ≤ (formatBlock
      (rag.vector_store.similarity_search M q none).headI).length :=
    formatBlock_length_ge _
  rw [hlen, hsep]
  omega

/-- C2 witness: the budget theorem applied to the concrete initialized
engine at the query `"hoodie"` with budget 100. -/
theorem get_relevant_context_budget_witness :
    (takeParts 100 (rag1.vector_store.similarity_search M1 "hoodie" none) 0 =
      ((rag1.vector_store.similarity_search M1 "hoodie" none).take
          (takeParts 100 (rag1.vector_store.similarity_search M1 "hoodie" none) 0).length).map
        formatBlock) ∧
    sumLens (takeParts 100 (rag1.vector_store.similarity_search M1 "hoodie" none) 0) ≤ 100 ∧
    (RAGSystem.get_relevant_context M1 [] rag1 {} "hoodie" 100).length ≤
      100 + (formatBlock
            (rag1.vector_store.similarity_search M1 "hoodie" none).headI).length :=
  get_relevant_context_budget M1 [] rag1 {} "hoodie" 100 rfl (by decide)

/-- C10: when the result list is non-empty but the first formatted
block alone is longer than the budget, `get_relevant_context` returns
the empty string, not the sentinel message (which is produced only for
an empty result list). -/
theorem get_relevant_context_first_block (M : EmbedModel)
    (kb : List Document) (rag : RAGSystem) (fsys : IndexFiles)
    (q : String) (L : Nat)
    (h : rag.is_initialized = true)
    (hne : rag.vector_store.similarity_search M q none ≠ [])
    (hlong : L < (formatBlock
        (rag.vector_store.similarity_search M q none).headI).length) :
    RAGSystem.get_relevant_context M kb rag fsys q L = "" ∧
      RAGSystem.get_relevant_context M kb rag fsys q L ≠
        "No relevant information found in the knowledge base." := by
  have hmain : RAGSystem.get_relevant_context M kb rag fsys q L = "" := by
    rw [get_relevant_context_initialized M kb rag fsys q L h,
        isEmpty_false_of_ne_nil hne]
    simp only [Bool.false_eq_true, if_false]
    cases hres : rag.vector_store.similarity_search M q none with
    | nil => exact absurd hres hne
    | cons r rest =>
      rw [hres] at hlong
      simp only [List.headI_cons] at hlong
      simp only [takeParts]
      rw [if_pos (by omega)]
      rfl
  refine ⟨hmain, ?_⟩
  rw [hmain]
  decide

/-- C10 witness: with budget 5 the single 27-character block does not
fit, so the concrete engine returns `""` and not the sentinel. -/
theorem get_relevant_context_first_block_witness :
    RAGSystem.get_relevant_context M1 [] rag1 {} "hoodie" 5 = "" ∧
      RAGSystem.get_relevant_context M1 [] rag1 {} "hoodie" 5 ≠
        "No relevant information found in the knowledge base." :=
  get_relevant_context_first_block M1 [] rag1 {} "hoodie" 5 rfl
    (by decide) (by decide)

/-- C6: saving a built store and loading into a fresh store succeeds
and reproduces the store exactly — same chunk order and vector
assignment — so any fixed query returns identical search results
(ordering and exact scores) before the save and after the load. -/
theorem save_load_round_trip (M : EmbedModel) (vs fresh : VectorStore)
    (ix : IndexFlatIP) (em : List (List Score))
    (hix : vs.index = some ix) (hem : vs.embeddings = some em) :
    ∃ fsys : IndexFiles,
      vs.save_index = some fsys ∧
        fresh.load_index fsys = (vs, true) ∧
        ∀ (q : String) (k : Option Nat),
          (fresh.load_index fsys).1.similarity_search M q k =
            vs.similarity_search M q k := by
  obtain ⟨i0, d0, e0⟩ := vs
  cases hix
  cases hem
  exact ⟨{ indexFile := some ix, docsFile := some d0,
           embeddingsFile := some em }, rfl, rfl, fun q k => rfl⟩

/-- C6 witness: the round trip applied to the concrete built
two-document store, loading into a freshly constructed store. -/
theorem save_load_round_trip_witness :
    ∃ fsys : IndexFiles,
      rag1.vector_store.save_index = some fsys ∧
        VectorStore.load_index {} fsys = (rag1.vector_store, true) ∧
        ∀ (q : String) (k : Option Nat),
          (VectorStore.load_index {} fsys).1.similarity_search M1 q k =
            rag1.vector_store.similarity_search M1 q k :=
  save_load_round_trip M1 rag1.vector_store {} ⟨[[1], [mkRat 1 2]]⟩
    [[1], [mkRat 1 2]] rfl rfl

/-- C5: after one successful `initialize` (with any `force_rebuild`),
calling `initialize` again with `force_rebuild = False` succeeds and
returns the identical engine state and artifact files: the reload from
the just-written (or just-loaded) artifacts reproduces the state
exactly, so the call is an observable no-op. -/
theorem initialize_idempotent (M : EmbedModel) (kb : List Document)
    (rag rag2 : RAGSystem) (fsys fsys2 : IndexFiles) (force_rebuild : Bool)
    (h : rag.initialize M kb fsys force_rebuild = some (rag2, fsys2)) :
    rag2.initialize M kb fsys2 false = some (rag2, fsys2) := by
  cases force_rebuild with
  | true =>
    cases hembs : ((kb.map fun d => d.page_content).map M.encode).map M.normalize_L2 with
    | nil =>
      simp only [ RAGSystem.initialize, VectorStore.build_index, hembs,
        if_true, Bool.false_eq_true, if_false] at h
      exact Option.noConfusion h
    | cons v vecs =>
      simp only [ RAGSystem.initialize, VectorStore.build_index, hembs,
        VectorStore.save_index, if_true, Bool.false_eq_true, if_false,
        Option.some.injEq, Prod.mk.injEq] at h
      obtain ⟨ha, hb⟩ := h
      subst ha
      subst hb
      simp [ RAGSystem.initialize, VectorStore.load_index]
  | false =>
    obtain ⟨oi, od, oe⟩ := fsys
    by_cases hload : ∃ i d e, oi = some i ∧ od = some d ∧ oe = some e
    · obtain ⟨i, d, e, rfl, rfl, rfl⟩ := hload
      simp only [ RAGSystem.initialize, VectorStore.load_index,
        Bool.false_eq_true, if_false, if_true, Option.some.injEq,
        Prod.mk.injEq] at h
      obtain ⟨ha, hb⟩ := h
      subst ha
      subst hb
      simp [ RAGSystem.initialize, VectorStore.load_index]
    · cases hembs : ((kb.map fun d => d.page_content).map M.encode).map M.normalize_L2 with
      | nil =>
        cases oi with
        | none =>
          simp only [ RAGSystem.initialize, VectorStore.load_index,
            VectorStore.build_index, hembs, Bool.false_eq_true,
            if_false, if_true] at h
          exact Option.noConfusion h
        | some i =>
          cases od with
          | none =>
            simp only [ RAGSystem.initialize, VectorStore.load_index,
              VectorStore.build_index, hembs, Bool.false_eq_true,
              if_false, if_true] at h
            exact Option.noConfusion h
          | some d =>
            cases oe with
            | none =>
              simp only [ RAGSystem.initialize, VectorStore.load_index,
                VectorStore.build_index, hembs, Bool.false_eq_true,
                if_false, if_true] at h
              exact Option.noConfusion h
            | some e => exact absurd ⟨i, d, e, rfl, rfl, rfl⟩ hload
      | cons v vecs =>
        cases oi with
        | none =>
          simp only [ RAGSystem.initialize, VectorStore.load_index,
            VectorStore.build_index, hembs, VectorStore.save_index,
            Bool.false_eq_true, if_false, if_true, Option.some.injEq,
            Prod.mk.injEq] at h
          obtain ⟨ha, hb⟩ := h
          subst ha
          subst hb
          simp [ RAGSystem.initialize, VectorStore.load_index]
        | some i =>
          cases od with
          | none =>
            simp only [ RAGSystem.initialize, VectorStore.load_index,
              VectorStore.build_index, hembs, VectorStore.save_index,
              Bool.false_eq_true, if_false, if_true, Option.some.injEq,
              Prod.mk.injEq] at h
            obtain ⟨ha, hb⟩ := h
            subst ha
            subst hb
            simp [ RAGSystem.initialize, VectorStore.load_index]
          | some d =>
            cases oe with
            | none =>
              simp only [ RAGSystem.initialize, VectorStore.load_index,
                VectorStore.build_index, hembs, VectorStore.save_index,
                Bool.false_eq_true, if_false, if_true, Option.some.injEq,
                Prod.mk.injEq] at h
              obtain ⟨ha, hb⟩ := h
              subst ha
              subst hb
              simp [ RAGSystem.initialize, VectorStore.load_index]
            | some e => exact absurd ⟨i, d, e, rfl, rfl, rfl⟩ hload

/-- The engine state a fresh engine reaches after one successful
`initialize` over the knowledge base `[docA]` with empty artifact
files: the load fails, so the index is rebuilt and saved. -/
def ragInit : RAGSystem :=
  { vector_store := { index := some ⟨[[1]]⟩, documents := [docA],
                      embeddings := some [[1]] },
    is_initialized := true }

/-- The artifact files written by that first `initialize`. -/
def fsInit : IndexFiles :=
  { indexFile := some ⟨[[1]]⟩, docsFile := some [docA],
    embeddingsFile := some [[1]] }

/-- C5 witness: a fresh engine with empty artifact files initializes to
`(ragInit, fsInit)`, and a second `initialize` without `force_rebuild`
returns exactly the same pair. -/
theorem initialize_idempotent_witness :
    RAGSystem.initialize M1 [docA] ragInit fsInit false =
      some (ragInit, fsInit) :=
  initialize_idempotent M1 [docA] {} ragInit {} fsInit false (by decide)

end StylingRAG
